import Mathlib

/-!
Verification of the logging facility in `src/logger.py`:
a colorized formatter, a path-redaction filter, a daily-rotating file
handler, and a `Logger` facade with a console sink and an optional file
sink.  The definitions below are a shallow embedding of that source;
theorems settle the specification claims about it.
-/

namespace PyLog

/-! ### Decimal rendering of a natural number (Python `%d` for the values
occurring here, all non-negative).  Fuel-structured so it evaluates in the
kernel; the fuel `n` always suffices. -/

def digitChar : Nat → Char
  | 0 => '0'
  | 1 => '1'
  | 2 => '2'
  | 3 => '3'
  | 4 => '4'
  | 5 => '5'
  | 6 => '6'
  | 7 => '7'
  | 8 => '8'
  | 9 => '9'
  | _ => '*'

def showNatAux : Nat → Nat → List Char
  | 0, _ => []
  | _, 0 => []
  | fuel + 1, n + 1 => showNatAux fuel ((n + 1) / 10) ++ [digitChar ((n + 1) % 10)]

def showNat (n : Nat) : String :=
  if n = 0 then "0" else ⟨showNatAux n n⟩

/-! ### Severity levels (the five names of the `LogLevelColors` table minus
the reset entry) and their Python numeric levels. -/

inductive Severity
  | debug
  | info
  | warning
  | error
  | critical
deriving DecidableEq, Repr

def levelOf : Severity → Nat
  | .debug => 10
  | .info => 20
  | .warning => 30
  | .error => 40
  | .critical => 50

def levelName : Severity → String
  | .debug => "DEBUG"
  | .info => "INFO"
  | .warning => "WARNING"
  | .error => "ERROR"
  | .critical => "CRITICAL"

/-- `LogLevelColors[levelname].value` of `src/logger.py` lines 15-23
(`\033` is the escape character `\x1b`). -/
def colorValue : Severity → String
  | .debug => "\x1b[96m"
  | .info => "\x1b[92m"
  | .warning => "\x1b[93m"
  | .error => "\x1b[33m"
  | .critical => "\x1b[91m"

/-- `LogLevelColors.ENDC.value`. -/
def endc : String := "\x1b[0m"

/-! ### Log records.  A record carries the fields the formatter and the
filter touch: severity, rendered timestamp, pathname, line number,
message. -/

structure LogRecord where
  severity : Severity
  asctime : String
  pathname : String
  lineno : Nat
  message : String
deriving DecidableEq, Repr

/-- `Formatter.format` (`src/logger.py` lines 33-44):
color prefix, then `[asctime] | pathname:lineno | LEVELNAME | message`,
then the reset code. -/
def formatRecord (r : LogRecord) : String :=
  colorValue r.severity ++ "[" ++ r.asctime ++ "] | " ++ r.pathname ++ ":"
    ++ showNat r.lineno ++ " | " ++ levelName r.severity ++ " | " ++ r.message ++ endc

/-! ### Python `str.replace(old, new)` on lists of characters.
Replaces every non-overlapping occurrence of `pat`, scanning left to
right; an empty `pat` matches at every position (Python inserts `rep`
between all characters and at both ends). -/

def pyReplaceAux (pat rep : List Char) : Nat → List Char → List Char
  | _, [] => if pat = [] then rep else []
  | 0, c :: cs => c :: cs
  | fuel + 1, c :: cs =>
    if pat = [] then rep ++ c :: pyReplaceAux pat rep fuel cs
    else if pat.isPrefixOf (c :: cs) then
      rep ++ pyReplaceAux pat rep fuel ((c :: cs).drop pat.length)
    else c :: pyReplaceAux pat rep fuel cs

/-- Each scanning step consumes at least one character, so fuel
`s.length` always suffices; the `0, c :: cs` fallback of the auxiliary
function is unreachable. -/
def pyReplace (pat rep : List Char) (s : List Char) : List Char :=
  pyReplaceAux pat rep s.length s

/-- `record.pathname.replace(os.getcwd(), "~")` of
`RelativePathFilter.filter` (`src/logger.py` line 29). -/
def redactPath (cwd path : String) : String :=
  ⟨pyReplace cwd.data ['~'] path.data⟩

/-- `RelativePathFilter.filter` (`src/logger.py` lines 26-30): rewrites
the pathname field and returns `True`. -/
def applyFilter (cwd : String) (r : LogRecord) : LogRecord × Bool :=
  ({ r with pathname := redactPath cwd r.pathname }, true)

/-- `pat` occurs as a contiguous sublist of `s`. -/
def occursIn (pat : List Char) : List Char → Bool
  | [] => pat.isEmpty
  | c :: cs => pat.isPrefixOf (c :: cs) || occursIn pat cs

/-! ### Calendar dates and the dated log-file path. -/

structure PDate where
  year : Nat
  month : Nat
  day : Nat
deriving DecidableEq, Repr

def pad2 (n : Nat) : String :=
  if n < 10 then "0" ++ showNat n else showNat n

def pad4 (n : Nat) : String :=
  if n < 10 then "000" ++ showNat n
  else if n < 100 then "00" ++ showNat n
  else if n < 1000 then "0" ++ showNat n
  else showNat n

/-- `strftime('%Y-%m-%d')`. -/
def dateStr (d : PDate) : String :=
  pad4 d.year ++ "-" ++ pad2 d.month ++ "-" ++ pad2 d.day

/-- The path `folder / f"{date}-{ext}.log"` used in `FileHandler.__init__`
(line 66) and `FileHandler.emit` (line 76). -/
def logFileName (folder ext : String) (d : PDate) : String :=
  folder ++ "/" ++ dateStr d ++ "-" ++ ext ++ ".log"

/-! ### Observable events of the sinks.  `openA` is the append-mode open
performed by `logging.FileHandler` (its default mode is `"a"`, both at
construction and in `_open` during rotation); the model has no
truncating open because the source never performs one.  `closeE` is
`self.close()`, which flushes and closes the stream.  `setLast` is the
assignment to `_last_entry`. -/

inductive Ev
  | mkdirE (folder : String)
  | openA (path : String)
  | closeE
  | setLast (d : PDate)
  | writeL (path : String) (line : String)
  | consoleW (line : String)
deriving DecidableEq, Repr

/-! ### The rotating file handler.
`_last_entry` is a class-level attribute in the source (line 58); reading
`self._last_entry` yields the instance attribute once `emit` has assigned
it, and the shared class value before that.  The class value is passed in
as `classLast`; `instLast` is the instance attribute (`none` until the
first rotation). -/

structure FHState where
  folder : String
  ext : String
  instLast : Option PDate
  baseFilename : String
deriving DecidableEq, Repr

/-- The value Python reads for `self._last_entry`. -/
def FHState.lastEntry (st : FHState) (classLast : PDate) : PDate :=
  st.instLast.getD classLast

/-- `FileHandler.__init__` (lines 60-68): `mkdir(exist_ok=True)` on the
folder, then an append-mode open of the dated file. -/
def fhInit (today : PDate) (folder ext : String) : FHState × List Ev :=
  let path := logFileName folder ext today
  ({ folder := folder, ext := ext, instLast := none, baseFilename := path },
   [Ev.mkdirE folder, Ev.openA path])

/-- `FileHandler.emit` (lines 71-78): if `self._last_entry.date()` differs
from today, assign `_last_entry`, close, point `baseFilename` at the new
dated file, reopen (append mode), then write the line; otherwise just
write the line to the current file. -/
def fhEmit (classLast today : PDate) (line : String) (st : FHState) :
    FHState × List Ev :=
  if st.lastEntry classLast ≠ today then
    let newPath := logFileName st.folder st.ext today
    ({ st with instLast := some today, baseFilename := newPath },
     [Ev.setLast today, Ev.closeE, Ev.openA newPath, Ev.writeL newPath line])
  else
    (st, [Ev.writeL st.baseFilename line])

/-- Net effect of one event on the number of open file handles. -/
def handleDelta : Ev → Int
  | Ev.openA _ => 1
  | Ev.closeE => -1
  | _ => 0

/-- Starting from `start` open handles, no prefix of the event list ever
has more than one handle open. -/
def neverTwoOpen (start : Int) : List Ev → Bool
  | [] => decide (start ≤ 1)
  | e :: es => decide (start ≤ 1) && neverTwoOpen (start + handleDelta e) es

/-! ### The `Logger` facade (`src/logger.py` lines 81-126). -/

inductive Sink
  | consoleS
  | fileS (st : FHState)
deriving DecidableEq, Repr

structure LoggerState where
  name : String
  level : Nat
  sinks : List Sink
deriving DecidableEq, Repr

/-- `Logger.__init__` (lines 111-120): the parameters are exactly
`name` (required), `level` (default `logging.DEBUG = 10`) and
`file_logging` (default `False`).  A console handler is always added;
when `file_logging` is true a `FileHandler(ext=name)` is also added,
whose folder is the `FileHandler` default `"logs"` — the constructor has
no folder parameter.  `today` is the date at construction time; the
returned event list holds the filesystem effects of construction. -/
def mkLogger (today : PDate) (name : String) (level : Nat := 10)
    (file_logging : Bool := false) : LoggerState × List Ev :=
  if file_logging then
    let r := fhInit today "logs" name
    ({ name := name, level := level, sinks := [Sink.consoleS, Sink.fileS r.1] }, r.2)
  else
    ({ name := name, level := level, sinks := [Sink.consoleS] }, [])

/-- Modelled from the spec: the spec gives the Logger constructor the
signature `{name (required), minLevel (default DEBUG), fileLogging
(default false), folder (default "logs")}`; the source constructor has
no `folder` parameter.  This definition follows the spec words, to be
compared with `mkLogger` translated from the source. -/
def specMkLogger (today : PDate) (name : String) (level : Nat := 10)
    (file_logging : Bool := false) (folder : String := "logs") :
    LoggerState × List Ev :=
  if file_logging then
    let r := fhInit today folder name
    ({ name := name, level := level, sinks := [Sink.consoleS, Sink.fileS r.1] }, r.2)
  else
    ({ name := name, level := level, sinks := [Sink.consoleS] }, [])

/-- One handler processing a record (`Handler.handle`): the attached
`RelativePathFilter` rewrites the record, then the handler emits.  The
console handler writes the formatted line plus terminator to stderr; the
file handler runs `FileHandler.emit`.  Returns the updated sink, the
record as mutated by the filter (Python mutates the shared record
object), and the events. -/
def sinkHandle (classLast today : PDate) (cwd : String) (record : LogRecord) :
    Sink → Sink × LogRecord × List Ev
  | Sink.consoleS =>
    let record' := (applyFilter cwd record).1
    (Sink.consoleS, record', [Ev.consoleW (formatRecord record' ++ "\n")])
  | Sink.fileS st =>
    let record' := (applyFilter cwd record).1
    let r := fhEmit classLast today (formatRecord record' ++ "\n") st
    (Sink.fileS r.1, record', r.2)

/-- `Logger.callHandlers`: each handler in order sees the record as left
by the previous handler's filter. -/
def dispatch (classLast today : PDate) (cwd : String) :
    List Sink → LogRecord → List Sink × LogRecord × List Ev
  | [], record => ([], record, [])
  | s :: ss, record =>
    let r1 := sinkHandle classLast today cwd record s
    let r2 := dispatch classLast today cwd ss r1.2.1
    (r1.1 :: r2.1, r2.2.1, r1.2.2 ++ r2.2.2)

/-- A log call at severity `sev` (the body of `Logger.debug` ...
`Logger.critical`): if `isEnabledFor` fails (`levelOf sev < level`)
nothing happens and no record is constructed; otherwise the record is
built and dispatched to every handler. -/
def logCall (classLast today : PDate) (cwd : String) (lg : LoggerState)
    (sev : Severity) (asctime pathname : String) (lineno : Nat)
    (msg : String) : LoggerState × Option LogRecord × List Ev :=
  if levelOf sev ≥ lg.level then
    let record : LogRecord :=
      { severity := sev, asctime := asctime, pathname := pathname,
        lineno := lineno, message := msg }
    let r := dispatch classLast today cwd lg.sinks record
    ({ lg with sinks := r.1 }, some record, r.2.2)
  else (lg, none, [])

/-- Events that are writes of a log line to some sink. -/
def isConsoleWrite : Ev → Bool
  | Ev.consoleW _ => true
  | _ => false

def isFileWrite : Ev → Bool
  | Ev.writeL _ _ => true
  | _ => false

/-! ### Lemmas about `pyReplaceAux`. -/

theorem pyReplaceAux_fuel (pat rep : List Char) :
    ∀ f1 s, s.length ≤ f1 → ∀ f2, s.length ≤ f2 →
      pyReplaceAux pat rep f1 s = pyReplaceAux pat rep f2 s := by
  intro f1
  induction f1 with
  | zero =>
    intro s hs f2 _
    have hnil : s = [] := List.eq_nil_of_length_eq_zero (Nat.le_zero.mp hs)
    subst hnil
    cases f2 <;> rfl
  | succ f ih =>
    intro s hs f2 h2
    cases s with
    | nil => cases f2 <;> rfl
    | cons c cs =>
      cases f2 with
      | zero => simp at h2
      | succ g =>
        simp only [List.length_cons] at hs h2
        have hcs1 : cs.length ≤ f := by omega
        have hcs2 : cs.length ≤ g := by omega
        by_cases hpat : pat = []
        · simp only [pyReplaceAux, if_pos hpat, ih cs hcs1 g hcs2]
        · have hp1 : 1 ≤ pat.length := List.length_pos.mpr hpat
          by_cases hpre : pat.isPrefixOf (c :: cs)
          · have hd1 : ((c :: cs).drop pat.length).length ≤ f := by
              simp only [List.length_drop, List.length_cons]; omega
            have hd2 : ((c :: cs).drop pat.length).length ≤ g := by
              simp only [List.length_drop, List.length_cons]; omega
            simp only [pyReplaceAux, if_neg hpat, if_pos hpre, ih _ hd1 g hd2]
          · simp only [pyReplaceAux, if_neg hpat, if_neg hpre, ih cs hcs1 g hcs2]

theorem pyReplaceAux_no_occur (pat rep : List Char) :
    ∀ fuel s, s.length ≤ fuel → occursIn pat s = false →
      pyReplaceAux pat rep fuel s = s := by
  intro fuel
  induction fuel with
  | zero =>
    intro s hs hocc
    have hnil : s = [] := List.eq_nil_of_length_eq_zero (Nat.le_zero.mp hs)
    subst hnil
    simp only [occursIn] at hocc
    have hpat : pat ≠ [] := by
      intro h; subst h; simp [List.isEmpty] at hocc
    simp [pyReplaceAux, hpat]
  | succ f ih =>
    intro s hs hocc
    cases s with
    | nil =>
      simp only [occursIn] at hocc
      have hpat : pat ≠ [] := by
        intro h; subst h; simp [List.isEmpty] at hocc
      simp [pyReplaceAux, hpat]
    | cons c cs =>
      simp only [occursIn, Bool.or_eq_false_iff] at hocc
      have hpat : pat ≠ [] := by
        intro h; subst h; simp [List.isPrefixOf] at hocc
      simp only [List.length_cons] at hs
      simp only [pyReplaceAux, if_neg hpat, hocc.1, if_neg Bool.false_ne_true]
      rw [ih cs (by omega) hocc.2]

theorem not_pref_pyReplaceAux (pat : List Char) (hpat : pat ≠ []) :
    ∀ fuel s q, s.length ≤ fuel → q ≠ [] → '~' ∉ q →
      q.isPrefixOf s = false →
      q.isPrefixOf (pyReplaceAux pat ['~'] fuel s) = false := by
  intro fuel
  induction fuel with
  | zero =>
    intro s q hs hq _ _
    have hnil : s = [] := List.eq_nil_of_length_eq_zero (Nat.le_zero.mp hs)
    subst hnil
    cases q with
    | nil => exact absurd rfl hq
    | cons a as => simp [pyReplaceAux, if_neg hpat, List.isPrefixOf]
  | succ f ih =>
    intro s q hs hq hmq hqs
    cases s with
    | nil =>
      cases q with
      | nil => exact absurd rfl hq
      | cons a as => simp [pyReplaceAux, if_neg hpat, List.isPrefixOf]
    | cons c cs =>
      simp only [List.length_cons] at hs
      cases q with
      | nil => exact absurd rfl hq
      | cons a as =>
        have ha : a ≠ '~' := fun h => hmq (h ▸ List.mem_cons_self a as)
        by_cases hpre : pat.isPrefixOf (c :: cs)
        · simp only [pyReplaceAux, if_neg hpat, if_pos hpre, List.cons_append,
            List.nil_append, List.isPrefixOf, Bool.and_eq_false_iff]
          left
          exact beq_eq_false_iff_ne.mpr ha
        · simp only [pyReplaceAux, if_neg hpat, if_neg hpre]
          simp only [List.isPrefixOf, Bool.and_eq_false_iff] at hqs ⊢
          rcases hqs with hac | hascs
          · exact Or.inl hac
          · by_cases hac : a = c
            · right
              have hasne : as ≠ [] := by
                intro h
                subst h; subst hac
                simp [List.isPrefixOf] at hascs
              have hmas : '~' ∉ as := fun h => hmq (List.mem_cons_of_mem a h)
              exact ih cs as (by omega) hasne hmas hascs
            · exact Or.inl (beq_eq_false_iff_ne.mpr hac)

theorem occursIn_pyReplaceAux (pat : List Char) (hpat : pat ≠ [])
    (hm : '~' ∉ pat) :
    ∀ fuel s, s.length ≤ fuel →
      occursIn pat (pyReplaceAux pat ['~'] fuel s) = false := by
  obtain ⟨p, ps, rfl⟩ : ∃ p ps, pat = p :: ps := by
    cases pat with
    | nil => exact absurd rfl hpat
    | cons p ps => exact ⟨p, ps, rfl⟩
  have hpne : p ≠ '~' := fun h => hm (h ▸ List.mem_cons_self p ps)
  have hmps : '~' ∉ ps := fun h => hm (List.mem_cons_of_mem p h)
  intro fuel
  induction fuel with
  | zero =>
    intro s hs
    have hnil : s = [] := List.eq_nil_of_length_eq_zero (Nat.le_zero.mp hs)
    subst hnil
    simp [pyReplaceAux, hpat, occursIn, List.isEmpty]
  | succ f ih =>
    intro s hs
    cases s with
    | nil => simp [pyReplaceAux, hpat, occursIn, List.isEmpty]
    | cons c cs =>
      simp only [List.length_cons] at hs
      by_cases hpre : (p :: ps).isPrefixOf (c :: cs)
      · have hd : ((c :: cs).drop (p :: ps).length).length ≤ f := by
          simp only [List.length_drop, List.length_cons]; omega
        simp only [pyReplaceAux, if_neg hpat, if_pos hpre, List.cons_append,
          List.nil_append, occursIn, Bool.or_eq_false_iff]
        refine ⟨?_, ih _ hd⟩
        simp only [List.isPrefixOf, Bool.and_eq_false_iff]
        exact Or.inl (beq_eq_false_iff_ne.mpr hpne)
      · simp only [pyReplaceAux, if_neg hpat, if_neg hpre, occursIn,
          Bool.or_eq_false_iff]
        refine ⟨?_, ih cs (by omega)⟩
        simp only [List.isPrefixOf, Bool.and_eq_false_iff]
        by_cases hpc : p = c
        · right
          have hpsne : ps ≠ [] := by
            intro h
            rw [h, hpc] at hpre
            simp [List.isPrefixOf] at hpre
          have hpscs : ps.isPrefixOf cs = false := by
            simp only [List.isPrefixOf, hpc, beq_self_eq_true, Bool.true_and] at hpre
            exact Bool.eq_false_iff.mpr hpre
          exact not_pref_pyReplaceAux (p :: ps) hpat f cs ps (by omega)
            hpsne hmps hpscs
        · exact Or.inl (beq_eq_false_iff_ne.mpr hpc)

/-- With a nonempty pattern that does not contain the marker, a second
replacement pass finds nothing to replace. -/
theorem pyReplace_idem (pat : List Char) (hpat : pat ≠ []) (hm : '~' ∉ pat)
    (s : List Char) :
    pyReplace pat ['~'] (pyReplace pat ['~'] s) = pyReplace pat ['~'] s :=
  pyReplaceAux_no_occur pat ['~'] _ _ le_rfl
    (occursIn_pyReplaceAux pat hpat hm s.length s le_rfl)

/-- A nonempty leading occurrence of the pattern is replaced by the
marker, and the replacement continues on the remainder. -/
theorem pyReplace_append_self (pat : List Char) (hpat : pat ≠ [])
    (s : List Char) :
    pyReplace pat ['~'] (pat ++ s) = '~' :: pyReplace pat ['~'] s := by
  obtain ⟨p, ps, hpps⟩ : ∃ p ps, pat = p :: ps := by
    cases pat with
    | nil => exact absurd rfl hpat
    | cons p ps => exact ⟨p, ps, rfl⟩
  have hpre : pat.isPrefixOf (pat ++ s) = true :=
    List.isPrefixOf_iff_prefix.mpr (List.prefix_append pat s)
  subst hpps
  simp only [pyReplace, List.cons_append, List.length_cons, List.length_append]
  rw [show (p :: ps ++ s) = p :: (ps ++ s) from rfl] at hpre
  simp only [pyReplaceAux, if_neg hpat, hpre, List.cons_append,
    List.nil_append, List.length_cons, List.drop_succ_cons, List.drop_left,
    if_true]
  exact congrArg (List.cons '~')
    (pyReplaceAux_fuel (p :: ps) ['~'] (ps.length + s.length) s
      (by omega) s.length le_rfl)

/-! ### Newline-freedom of the formatter's pieces. -/

theorem digitChar_ne_newline (k : Nat) : digitChar k ≠ '\n' := by
  unfold digitChar
  split <;> decide

theorem showNatAux_no_newline : ∀ fuel n, '\n' ∉ showNatAux fuel n := by
  intro fuel
  induction fuel with
  | zero => intro n; simp [showNatAux]
  | succ f ih =>
    intro n
    cases n with
    | zero => simp [showNatAux]
    | succ m =>
      simp only [showNatAux, List.mem_append, List.mem_singleton]
      rintro (h | h)
      · exact ih _ h
      · exact digitChar_ne_newline _ h.symm

theorem showNat_no_newline (n : Nat) : '\n' ∉ (showNat n).data := by
  unfold showNat
  split
  · decide
  · exact showNatAux_no_newline n n

/-! ## Claim theorems -/

/-- C4, counterexample: the source redaction (`str.replace`) rewrites
every occurrence of the process root, not only a leading one.  With root
"/r" and path "/r/a/r/b" the code produces "~/a~/b"; the claim, which
leaves everything after the leading occurrence unchanged, predicts
"~/a/r/b". -/
theorem c4_counterexample :
    redactPath "/r" "/r/a/r/b" = "~/a~/b"
    ∧ redactPath "/r" "/r/a/r/b" ≠ "~/a/r/b" := by
  decide

/-- C4, amended: for a nonempty root `r`, `redact(r ++ s, r)` replaces
the leading occurrence of `r` with the marker and applies the same
replacement to the remainder `s`, so occurrences of `r` past the prefix
are replaced as well rather than left unmodified. -/
theorem c4_redact_leading (root rest : String) (h : root.data ≠ []) :
    redactPath root (root ++ rest) = ⟨'~' :: (redactPath root rest).data⟩ := by
  simp only [redactPath, String.data_append]
  exact congrArg String.mk (pyReplace_append_self root.data h rest.data)

theorem c4_redact_leading_witness :
    redactPath "/r" ("/r" ++ "/a") = ⟨'~' :: (redactPath "/r" "/a").data⟩ :=
  c4_redact_leading "/r" "/a" (by decide)

/-- C5, counterexample: redaction is not idempotent for every root:
with root "x~" (a directory name containing the marker is legal) the
path "xx~" redacts to "x~", which redacts again to "~". -/
theorem c5_counterexample :
    redactPath "x~" (redactPath "x~" "xx~") ≠ redactPath "x~" "xx~" := by
  decide

/-- C5, amended: redaction is idempotent for every path whenever the
process root is nonempty and does not contain the marker character `~`;
redaction is a total function of its string inputs (never fails). -/
theorem c5_redact_idem (root p : String) (h1 : root.data ≠ [])
    (h2 : '~' ∉ root.data) :
    redactPath root (redactPath root p) = redactPath root p := by
  simp only [redactPath]
  exact congrArg String.mk (pyReplace_idem root.data h1 h2 p.data)

theorem c5_redact_idem_witness :
    redactPath "/r" (redactPath "/r" "/r/a/r/b") = redactPath "/r" "/r/a/r/b" :=
  c5_redact_idem "/r" "/r/a/r/b" (by decide) (by decide)

/-- C10: the path-redaction filter returns `True` on every record (it
never suppresses a record from any sink), and its only effect is
rewriting the pathname field; severity, timestamp, line number and
message are unchanged. -/
theorem c10_filter_frame (cwd : String) (r : LogRecord) :
    (applyFilter cwd r).2 = true
    ∧ (applyFilter cwd r).1.severity = r.severity
    ∧ (applyFilter cwd r).1.asctime = r.asctime
    ∧ (applyFilter cwd r).1.lineno = r.lineno
    ∧ (applyFilter cwd r).1.message = r.message
    ∧ (applyFilter cwd r).1.pathname = redactPath cwd r.pathname := by
  simp [applyFilter]

/-- C6: the formatter renders a record as the severity's ANSI color code
from the fixed table, then the fields in the fixed order
`[timestamp] | path:line | SEVERITY | message`, then the ANSI reset
code; when the record's string fields contain no newline the rendered
result is a single line (contains no newline); the function is total, so
an empty message or a zero line number still yields this well-formed
shape. -/
theorem c6_format_shape (r : LogRecord)
    (h1 : '\n' ∉ r.asctime.data) (h2 : '\n' ∉ r.pathname.data)
    (h3 : '\n' ∉ r.message.data) :
    formatRecord r =
      colorValue r.severity
        ++ ("[" ++ r.asctime ++ "] | " ++ r.pathname ++ ":"
            ++ showNat r.lineno ++ " | " ++ levelName r.severity ++ " | "
            ++ r.message)
        ++ endc
    ∧ '\n' ∉ (formatRecord r).data := by
  constructor
  · apply String.ext
    simp [formatRecord, String.data_append]
  · intro hmem
    simp only [formatRecord, String.data_append, List.mem_append] at hmem
    have hsn := showNat_no_newline r.lineno
    have hcol : '\n' ∉ (colorValue r.severity).data := by
      cases r.severity <;> decide
    have hlev : '\n' ∉ (levelName r.severity).data := by
      cases r.severity <;> decide
    rcases hmem with
      ((((((((((hc | hb) | ha) | hb2) | hp) | hb3) | hn) | hb4) | hl) | hb5)
        | hmsg) | he
    · exact hcol hc
    · exact absurd hb (by decide)
    · exact h1 ha
    · exact absurd hb2 (by decide)
    · exact h2 hp
    · exact absurd hb3 (by decide)
    · exact hsn hn
    · exact absurd hb4 (by decide)
    · exact hlev hl
    · exact absurd hb5 (by decide)
    · exact h3 hmsg
    · exact absurd he (by decide)

theorem c6_format_shape_witness :
    formatRecord ⟨Severity.info, "2024-01-02 03:04:05", "~/app.py", 0, ""⟩ =
      colorValue Severity.info
        ++ ("[" ++ "2024-01-02 03:04:05" ++ "] | " ++ "~/app.py" ++ ":"
            ++ showNat 0 ++ " | " ++ levelName Severity.info ++ " | " ++ "")
        ++ endc
    ∧ '\n' ∉ (formatRecord
        ⟨Severity.info, "2024-01-02 03:04:05", "~/app.py", 0, ""⟩).data :=
  c6_format_shape ⟨Severity.info, "2024-01-02 03:04:05", "~/app.py", 0, ""⟩
    (by decide) (by decide) (by decide)

/-- C1, counterexample: on a rotating write the source assigns
`_last_entry` (the recorded date) first, before closing the old handle —
the trace is `[setLast, close, open, write]`, not the claimed
`[close, open, setLast, write]`. -/
theorem c1_counterexample :
    (fhEmit ⟨2024, 1, 1⟩ ⟨2024, 1, 2⟩ "m"
        ⟨"logs", "app", none, "logs/2024-01-01-app.log"⟩).2 =
      [Ev.setLast ⟨2024, 1, 2⟩, Ev.closeE,
       Ev.openA "logs/2024-01-02-app.log",
       Ev.writeL "logs/2024-01-02-app.log" "m"]
    ∧ (fhEmit ⟨2024, 1, 1⟩ ⟨2024, 1, 2⟩ "m"
        ⟨"logs", "app", none, "logs/2024-01-01-app.log"⟩).2 ≠
      [Ev.closeE, Ev.openA "logs/2024-01-02-app.log",
       Ev.setLast ⟨2024, 1, 2⟩,
       Ev.writeL "logs/2024-01-02-app.log" "m"] := by
  decide

/-- C1, amended: on a write with `today()` differing from the recorded
date the sink performs, in this order: (a) update the recorded date to
`today()`, (b) flush and close the current handle, (c) open the file for
the new date in append mode, (d) append the line to the newly opened
handle; and starting from the one open handle, no prefix of the
operation sequence ever has more than one handle open. -/
theorem c1_rotation_order (st : FHState) (classLast today : PDate)
    (line : String) (h : st.lastEntry classLast ≠ today) :
    (fhEmit classLast today line st).2 =
      [Ev.setLast today, Ev.closeE,
       Ev.openA (logFileName st.folder st.ext today),
       Ev.writeL (logFileName st.folder st.ext today) line]
    ∧ neverTwoOpen 1 (fhEmit classLast today line st).2 = true := by
  simp [fhEmit, if_pos h, neverTwoOpen, handleDelta]

theorem c1_rotation_order_witness :
    (fhEmit ⟨2024, 1, 1⟩ ⟨2024, 1, 2⟩ "m"
        ⟨"logs", "app", none, "logs/2024-01-01-app.log"⟩).2 =
      [Ev.setLast ⟨2024, 1, 2⟩, Ev.closeE,
       Ev.openA (logFileName "logs" "app" ⟨2024, 1, 2⟩),
       Ev.writeL (logFileName "logs" "app" ⟨2024, 1, 2⟩) "m"]
    ∧ neverTwoOpen 1 (fhEmit ⟨2024, 1, 1⟩ ⟨2024, 1, 2⟩ "m"
        ⟨"logs", "app", none, "logs/2024-01-01-app.log"⟩).2 = true :=
  c1_rotation_order ⟨"logs", "app", none, "logs/2024-01-01-app.log"⟩
    ⟨2024, 1, 1⟩ ⟨2024, 1, 2⟩ "m" (by decide)

/-- C2: a write request rotates if and only if `today()` differs from
the sink's recorded date: the trace contains a close exactly when the
dates differ, and on equality the sink's state is unchanged and the line
is appended to the current file.  The branch depends only on the
(in)equality of the two dates, never on their order, so an earlier
`today()` takes the same rotation path as a later one, and the operation
is total. -/
theorem c2_rotate_iff (classLast today : PDate) (st : FHState)
    (line : String) :
    (Ev.closeE ∈ (fhEmit classLast today line st).2 ↔
      today ≠ st.lastEntry classLast)
    ∧ (today = st.lastEntry classLast →
        fhEmit classLast today line st = (st, [Ev.writeL st.baseFilename line])) := by
  by_cases h : st.lastEntry classLast = today
  · have hcond : ¬ st.lastEntry classLast ≠ today := fun hne => hne h
    simp [fhEmit, if_neg hcond, h.symm]
  · have hcond : st.lastEntry classLast ≠ today := h
    constructor
    · simp only [fhEmit, if_pos hcond]
      simp [Ne.symm hcond]
    · intro heq
      exact absurd heq.symm hcond

theorem c2_rotate_iff_witness :
    (Ev.closeE ∈ (fhEmit ⟨2024, 1, 1⟩ ⟨2024, 1, 1⟩ "m"
        ⟨"logs", "app", none, "logs/2024-01-01-app.log"⟩).2 ↔
      (⟨2024, 1, 1⟩ : PDate) ≠
        FHState.lastEntry ⟨"logs", "app", none, "logs/2024-01-01-app.log"⟩
          ⟨2024, 1, 1⟩)
    ∧ ((⟨2024, 1, 1⟩ : PDate) =
        FHState.lastEntry ⟨"logs", "app", none, "logs/2024-01-01-app.log"⟩
          ⟨2024, 1, 1⟩ →
        fhEmit ⟨2024, 1, 1⟩ ⟨2024, 1, 1⟩ "m"
          ⟨"logs", "app", none, "logs/2024-01-01-app.log"⟩ =
        (⟨"logs", "app", none, "logs/2024-01-01-app.log"⟩,
         [Ev.writeL "logs/2024-01-01-app.log" "m"])) :=
  c2_rotate_iff ⟨2024, 1, 1⟩ ⟨2024, 1, 1⟩
    ⟨"logs", "app", none, "logs/2024-01-01-app.log"⟩ "m"

/-- C9: the rotation-trigger field `_last_entry` is a class-level
attribute: a freshly constructed sink has no instance value
(`instLast = none`), so its effective recorded date is the shared
class-definition-time value, whatever day it was constructed on; hence a
sink constructed on a day different from the class-definition day
rotates on its very first write — reopening the very path it just
opened, since that file already carries today's date. -/
theorem c9_first_write_rotates (classDef constructDay : PDate)
    (folder ext line : String) (h : constructDay ≠ classDef) :
    (fhInit constructDay folder ext).1.instLast = none
    ∧ (fhInit constructDay folder ext).1.lastEntry classDef = classDef
    ∧ (fhEmit classDef constructDay line (fhInit constructDay folder ext).1).2 =
        [Ev.setLast constructDay, Ev.closeE,
         Ev.openA (fhInit constructDay folder ext).1.baseFilename,
         Ev.writeL (fhInit constructDay folder ext).1.baseFilename line] := by
  refine ⟨rfl, rfl, ?_⟩
  have hne : classDef ≠ constructDay := Ne.symm h
  simp [fhEmit, fhInit, FHState.lastEntry, hne]

theorem c9_first_write_rotates_witness :
    (fhInit ⟨2024, 1, 2⟩ "logs" "app").1.instLast = none
    ∧ (fhInit ⟨2024, 1, 2⟩ "logs" "app").1.lastEntry ⟨2024, 1, 1⟩ = ⟨2024, 1, 1⟩
    ∧ (fhEmit ⟨2024, 1, 1⟩ ⟨2024, 1, 2⟩ "m" (fhInit ⟨2024, 1, 2⟩ "logs" "app").1).2 =
        [Ev.setLast ⟨2024, 1, 2⟩, Ev.closeE,
         Ev.openA (fhInit ⟨2024, 1, 2⟩ "logs" "app").1.baseFilename,
         Ev.writeL (fhInit ⟨2024, 1, 2⟩ "logs" "app").1.baseFilename "m"] :=
  c9_first_write_rotates ⟨2024, 1, 1⟩ ⟨2024, 1, 2⟩ "logs" "app" "m" (by decide)

/-- C7, counterexample: the write path is not always the file of the
recorded date.  Let the class-definition date be 2024-01-01, construct
the sink on 2024-01-02 (opening the 2024-01-02 file), then write while
`today()` is back at 2024-01-01: the recorded date (the class value
2024-01-01) equals today, so no rotation happens and the line is written
to the 2024-01-02 file although the recorded date renders as
2024-01-01. -/
theorem c7_counterexample :
    Ev.writeL "logs/2024-01-02-app.log" "m" ∈
      (fhEmit ⟨2024, 1, 1⟩ ⟨2024, 1, 1⟩ "m"
        (fhInit ⟨2024, 1, 2⟩ "logs" "app").1).2
    ∧ logFileName "logs" "app"
        ((fhEmit ⟨2024, 1, 1⟩ ⟨2024, 1, 1⟩ "m"
          (fhInit ⟨2024, 1, 2⟩ "logs" "app").1).1.lastEntry ⟨2024, 1, 1⟩) =
        "logs/2024-01-01-app.log"
    ∧ ("logs/2024-01-02-app.log" : String) ≠ "logs/2024-01-01-app.log" := by
  decide

/-- C7, amended: every open the sink performs — the one at construction
and the one on each rotation — is an append-mode open (the model has no
truncating open, matching the source's `"a"` mode) of a path of the
pattern `<folder>/<YYYY-MM-DD>-<ext>.log` with the date being `today()`
at that moment; construction also records that path as the current
`baseFilename`, and every write targets the sink's current
`baseFilename` (the path opened most recently).  After a rotation this
path carries the recorded date; at construction the recorded
(class-inherited) date may differ from the date of the file just
opened. -/
theorem c7_paths (today classLast : PDate) (folder ext line : String)
    (st : FHState) :
    (fhInit today folder ext).2 =
      [Ev.mkdirE folder, Ev.openA (logFileName folder ext today)]
    ∧ (fhInit today folder ext).1.baseFilename = logFileName folder ext today
    ∧ (∀ p, Ev.openA p ∈ (fhEmit classLast today line st).2 →
        p = logFileName st.folder st.ext today)
    ∧ (∀ p l, Ev.writeL p l ∈ (fhEmit classLast today line st).2 →
        p = (fhEmit classLast today line st).1.baseFilename) := by
  refine ⟨rfl, rfl, ?_, ?_⟩
  · intro p hp
    by_cases h : st.lastEntry classLast ≠ today
    · simp [fhEmit, if_pos h] at hp
      exact hp
    · simp [fhEmit, if_neg h] at hp
  · intro p l hpl
    by_cases h : st.lastEntry classLast ≠ today
    · simp [fhEmit, if_pos h] at hpl ⊢
      exact hpl.1
    · simp [fhEmit, if_neg h] at hpl ⊢
      exact hpl.1

theorem c7_paths_witness :
    ("logs/2024-01-02-app.log" : String) = logFileName "logs" "app" ⟨2024, 1, 2⟩ :=
  (c7_paths ⟨2024, 1, 2⟩ ⟨2024, 1, 1⟩ "logs" "app" "m"
      ⟨"logs", "app", none, "logs/2024-01-01-app.log"⟩).2.2.1
    "logs/2024-01-02-app.log" (by decide)

/-- C3: when the call's severity reaches the logger's minimum level, a
record is constructed and the call produces exactly one console write
and exactly one file write when file logging was enabled at construction
(zero file writes otherwise); when the severity is below the minimum
level, no record is constructed and no event at all occurs. -/
theorem c3_level_gate (ctoday today0 today : PDate) (cwd name : String)
    (lvl : Nat) (fl : Bool) (sev : Severity) (asctime pathname : String)
    (lineno : Nat) (msg : String) :
    (lvl ≤ levelOf sev →
      ((logCall ctoday today cwd (mkLogger today0 name lvl fl).1 sev asctime
          pathname lineno msg).2.1).isSome = true
      ∧ ((logCall ctoday today cwd (mkLogger today0 name lvl fl).1 sev asctime
          pathname lineno msg).2.2.filter isConsoleWrite).length = 1
      ∧ ((logCall ctoday today cwd (mkLogger today0 name lvl fl).1 sev asctime
          pathname lineno msg).2.2.filter isFileWrite).length =
          (if fl then 1 else 0))
    ∧ (levelOf sev < lvl →
        logCall ctoday today cwd (mkLogger today0 name lvl fl).1 sev asctime
          pathname lineno msg = ((mkLogger today0 name lvl fl).1, none, [])) := by
  constructor
  · intro hge
    cases fl with
    | false =>
      simp [logCall, mkLogger, dispatch, sinkHandle, isConsoleWrite,
        isFileWrite, hge]
    | true =>
      by_cases hrot :
          ((fhInit today0 "logs" name).1).lastEntry ctoday ≠ today
      · simp [logCall, mkLogger, dispatch, sinkHandle, fhEmit, if_pos hrot,
          isConsoleWrite, isFileWrite, hge, List.filter_append]
      · rw [not_ne_iff] at hrot
        simp [logCall, mkLogger, dispatch, sinkHandle, fhEmit, hrot,
          isConsoleWrite, isFileWrite, hge, List.filter_append]
  · intro hlt
    have hcond : ¬ levelOf sev ≥ (mkLogger today0 name lvl fl).1.level := by
      cases fl <;> simp [mkLogger] <;> omega
    simp [logCall, hcond]

theorem c3_level_gate_witness :
    (((logCall ⟨2024, 1, 1⟩ ⟨2024, 1, 1⟩ "/cwd"
        (mkLogger ⟨2024, 1, 1⟩ "app" 10 true).1 Severity.info "t" "/cwd/a.py"
        3 "hello").2.1).isSome = true
      ∧ ((logCall ⟨2024, 1, 1⟩ ⟨2024, 1, 1⟩ "/cwd"
          (mkLogger ⟨2024, 1, 1⟩ "app" 10 true).1 Severity.info "t" "/cwd/a.py"
          3 "hello").2.2.filter isConsoleWrite).length = 1
      ∧ ((logCall ⟨2024, 1, 1⟩ ⟨2024, 1, 1⟩ "/cwd"
          (mkLogger ⟨2024, 1, 1⟩ "app" 10 true).1 Severity.info "t" "/cwd/a.py"
          3 "hello").2.2.filter isFileWrite).length = (if true then 1 else 0))
    ∧ logCall ⟨2024, 1, 1⟩ ⟨2024, 1, 1⟩ "/cwd"
        (mkLogger ⟨2024, 1, 1⟩ "app" 30 false).1 Severity.debug "t" "/cwd/a.py"
        3 "hello" = ((mkLogger ⟨2024, 1, 1⟩ "app" 30 false).1, none, []) :=
  ⟨(c3_level_gate ⟨2024, 1, 1⟩ ⟨2024, 1, 1⟩ ⟨2024, 1, 1⟩ "/cwd" "app" 10 true
      Severity.info "t" "/cwd/a.py" 3 "hello").1 (by decide),
   (c3_level_gate ⟨2024, 1, 1⟩ ⟨2024, 1, 1⟩ ⟨2024, 1, 1⟩ "/cwd" "app" 30 false
      Severity.debug "t" "/cwd/a.py" 3 "hello").2 (by decide)⟩

/-- C8, counterexample: the source `Logger.__init__` has no `folder`
parameter.  The constructor modelled from the spec's parameter list,
given `folder="custom"` with file logging on, yields a file sink rooted
at "custom"; the source constructor with the same name, level and
file-logging flag yields a file sink rooted at the fixed default
"logs" — the two states differ. -/
theorem c8_counterexample :
    (specMkLogger ⟨2024, 1, 1⟩ "svc" 10 true "custom").1 ≠
      (mkLogger ⟨2024, 1, 1⟩ "svc" 10 true).1 := by
  decide

/-- C8, amended: the logger is constructible with exactly the parameters
name (required), level (default DEBUG = 10) and file_logging (default
false) — there is no folder parameter, and any file sink's folder is
always the default "logs"; the console sink is always the first sink;
a file sink is present iff file_logging was requested; and when
file_logging is false construction performs no filesystem operation. -/
theorem c8_construction (today : PDate) (name : String) (lvl : Nat)
    (fl : Bool) :
    (mkLogger today name).1 = (mkLogger today name 10 false).1
    ∧ (mkLogger today name lvl fl).1.sinks.head? = some Sink.consoleS
    ∧ (mkLogger today name lvl fl).1.sinks.length = (if fl then 2 else 1)
    ∧ ((∃ st, Sink.fileS st ∈ (mkLogger today name lvl fl).1.sinks) ↔
        fl = true)
    ∧ (fl = false → (mkLogger today name lvl fl).2 = [])
    ∧ (∀ st, Sink.fileS st ∈ (mkLogger today name lvl fl).1.sinks →
        st.folder = "logs") := by
  refine ⟨rfl, ?_, ?_, ?_, ?_, ?_⟩ <;> cases fl <;> simp [mkLogger, fhInit]

theorem c8_construction_witness :
    FHState.folder ⟨"logs", "svc", none, logFileName "logs" "svc" ⟨2024, 1, 1⟩⟩
      = "logs" :=
  (c8_construction ⟨2024, 1, 1⟩ "svc" 10 true).2.2.2.2.2
    ⟨"logs", "svc", none, logFileName "logs" "svc" ⟨2024, 1, 1⟩⟩ (by decide)

end PyLog
